import Mathlib

/-!
Verification development for the Youtube-Uploader repository.

This file gives a shallow embedding, in Lean 4, of the parts of the
repository relevant to its correctness claims: the verified file
relocation of `file_handler.py` (`FileHandler.compute_file_hash`,
`verify_copy`, `safe_copy_and_verify`, `safe_move`), the persistent
state store of `state_manager.py` (`StateManager.set_upload_state`,
`get_retry_count`, `reset_incomplete_uploads_to_pending`,
`is_file_uploaded`, `add_upload_to_history`, `record_quota_hit`,
`_atomic_write_json`, `_load_json_with_validation`, the playlist sort
checkpoint accessors), and the orchestration of `upload_manager.py`
(`UploadManager.upload_video`, `is_in_cooldown`,
`sort_playlist_alphabetically`, `upload_files_from_folder`).

Modelling conventions:
- a file system is a partial map from paths to byte contents
  (`Content`, a list of byte values);
- the MD5 digest is an abstract function `hash : Content → Digest`
  passed as a parameter: the code only ever compares digests for
  equality;
- timestamps are integers (`datetime` values in the source);
- Python dicts are association lists with distinct keys, where
  assignment to an existing key replaces its value in place and
  assignment to a new key appends (insertion order semantics);
- interaction with the operating system and the remote YouTube
  service is captured by explicit oracle parameters (the outcome of a
  copy, of each delete attempt, of the remote upload call, of each
  playlist position commit), so every claim is quantified over all
  environment behaviours.
-/

namespace YTU

/-- Paths are strings. -/
abbrev Path := String

/-- File contents: a list of byte values. -/
abbrev Content := List Nat

/-- An MD5-style digest; the code only compares digests for equality. -/
abbrev Digest := Nat

/-- A file system: a partial map from paths to contents. -/
abbrev FS := Path → Option Content

/-- Point update of a file system (writing or removing one file). -/
def updateFS (fs : FS) (p : Path) (c : Option Content) : FS :=
  fun q => if q = p then c else fs q

/-! ### Configuration constants (from `config.py`) -/

/-- `config.MAX_FILE_OPERATION_RETRIES`. -/
def MAX_FILE_OPERATION_RETRIES : Nat := 5

/-- `config.MAX_FILE_SIZE_BYTES` (256 GB). -/
def MAX_FILE_SIZE_BYTES : Nat := 256 * 1024 * 1024 * 1024

/-- `config.MAX_UPLOAD_RETRY_ATTEMPTS`. -/
def MAX_UPLOAD_RETRY_ATTEMPTS : Nat := 3

/-- `config.INITIAL_RETRY_DELAY_SECONDS`. -/
def INITIAL_RETRY_DELAY_SECONDS : Int := 60

/-- `config.MAX_RETRY_DELAY_SECONDS`. -/
def MAX_RETRY_DELAY_SECONDS : Int := 3600

/-- `config.QUOTA_COOLDOWN_HOURS`. -/
def QUOTA_COOLDOWN_HOURS : Int := 24

/-- `config.QUOTA_COOLDOWN_BUFFER_MINUTES`. -/
def QUOTA_COOLDOWN_BUFFER_MINUTES : Int := 5

/-! ### `file_handler.py`: FileHandler -/

/-- `FileHandler.compute_file_hash`: returns the digest of the file's
content, or `none` when the path is not a file (the source returns
`None` after logging). The block-wise reading is an implementation
detail of computing `hash` of the whole content. -/
def compute_file_hash (hash : Content → Digest) (fs : FS) (p : Path) :
    Option Digest :=
  (fs p).map hash

/-- `FileHandler.verify_copy`: compares the digest of the destination
with the cached source digest when one is supplied, otherwise with a
freshly computed digest of the source; any hashing failure yields
`False`. -/
def verify_copy (hash : Content → Digest) (fs : FS) (src dst : Path)
    (cached : Option Digest) : Bool :=
  let srcHash : Option Digest :=
    match cached with
    | some h => some h
    | none => compute_file_hash hash fs src
  match srcHash, compute_file_hash hash fs dst with
  | some sh, some dh => sh == dh
  | _, _ => false

/-- Environment oracle for one `shutil.copy2` call: either the copy
completes and `written` is the content that actually landed on disk
(possibly corrupted, i.e. different from the source), or the copy
raises (`PermissionError`, `IOError`, missing destination directory,
...) leaving behind `leftover` partial content at the destination
(`none` when nothing was written). -/
inductive CopyOutcome where
  | ok (written : Content)
  | err (leftover : Option Content)
deriving DecidableEq, Repr

/-- `FileHandler.safe_copy_and_verify`: checks the source is a file,
copies to the destination, then verifies with `verify_copy`; on
verification failure the freshly written destination file is removed.
A copy of a file onto itself raises `shutil.SameFileError`, which the
handler turns into `False` with no change. Returns the success flag
and the resulting file system. -/
def safe_copy_and_verify (hash : Content → Digest) (fs : FS)
    (src dst : Path) (cached : Option Digest) (copy : CopyOutcome) :
    Bool × FS :=
  match fs src with
  | none => (false, fs)
  | some _ =>
    if src = dst then (false, fs)
    else
      match copy with
      | CopyOutcome.err leftover =>
        (false,
          match leftover with
          | none => fs
          | some c => updateFS fs dst (some c))
      | CopyOutcome.ok written =>
        let fs1 := updateFS fs dst (some written)
        if verify_copy hash fs1 src dst cached then (true, fs1)
        else (false, updateFS fs1 dst none)

/-- Result of `FileHandler.safe_move`: the success flag of the
`(success, message)` pair, the resulting file system, and the
destination path actually used (after timestamp suffixing). -/
structure MoveResult where
  success : Bool
  fs : FS
  dest : Path

/-- Step 0 of `FileHandler.safe_move`: when the destination already
exists, the timestamp-suffixed name `altDest` is used instead. -/
def move_dest (fs : FS) (dst altDest : Path) : Path :=
  if (fs dst).isSome then altDest else dst

/-- `FileHandler.safe_move`: resolve the destination with `move_dest`,
then `safe_copy_and_verify`; only when that succeeds is the source
deleted, with up to `MAX_FILE_OPERATION_RETRIES` attempts whose
individual outcomes are given by the oracle `deleteOk` (backoff
delays between attempts do not affect the file system). If every
delete attempt fails the function reports failure with both verified
copies left in place. -/
def safe_move (hash : Content → Digest) (fs : FS) (src dst : Path)
    (cached : Option Digest) (altDest : Path) (copy : CopyOutcome)
    (deleteOk : Nat → Bool) : MoveResult :=
  let dst1 := move_dest fs dst altDest
  let cv := safe_copy_and_verify hash fs src dst1 cached copy
  if cv.1 then
    if (List.range MAX_FILE_OPERATION_RETRIES).any deleteOk then
      ⟨true, updateFS cv.2 src none, dst1⟩
    else
      ⟨false, cv.2, dst1⟩
  else
    ⟨false, cv.2, dst1⟩

/-! ### `state_manager.py`: data model -/

/-- Upload lifecycle states (`'pending' | 'uploading' | 'completed' |
'failed'`). -/
inductive UpState where
  | pending
  | uploading
  | completed
  | failed
deriving DecidableEq, Repr

/-- One entry of `upload_state.json`: `{state, timestamp}` plus the
optional retry fields that `set_upload_state` adds only when they are
passed. -/
structure StateInfo where
  state : UpState
  timestamp : Int
  retry_count : Option Nat
  next_retry_time : Option Int
deriving DecidableEq, Repr

/-- One entry of `upload_history.json`, keyed by content digest. -/
structure HistoryRec where
  filename : String
  upload_date : Int
  video_id : String
deriving DecidableEq, Repr

/-- One item of a playlist as stored by the sort algorithm:
`{id, video_id, title}` (the `snippet` payload is carried along
unchanged and is irrelevant to the ordering logic). -/
structure Item where
  id : String
  video_id : String
  title : String
deriving DecidableEq, Repr

instance : Inhabited Item := ⟨⟨"", "", ""⟩⟩

/-- `playlist_sort_state.json`: the reorder resume checkpoint
`{playlist_id, sorted_items, last_position}`. `last_position` is an
integer and is `-1` when no position has been committed yet. -/
structure SortCkpt where
  playlist_id : String
  sorted_items : List Item
  last_position : Int
deriving DecidableEq, Repr

/-- Python dict assignment on an association list: replace the value
of an existing key in place, otherwise append the new binding. -/
def dictSet {K V : Type} [DecidableEq K] :
    List (K × V) → K → V → List (K × V)
  | [], k, v => [(k, v)]
  | (k0, v0) :: rest, k, v =>
    if k0 = k then (k, v) :: rest else (k0, v0) :: dictSet rest k v

/-- Python dict lookup on an association list. -/
def dictGet {K V : Type} [DecidableEq K] :
    List (K × V) → K → Option V
  | [], _ => none
  | (k0, v0) :: rest, k => if k0 = k then some v0 else dictGet rest k

/-- The in-memory state owned by `StateManager` (each component is
persisted to its own JSON file on every mutation). -/
structure SMState where
  upload_history : List (Digest × HistoryRec)
  upload_states : List (Path × StateInfo)
  last_quota_hit : Option Int
  playlist_sort_state : Option SortCkpt
deriving DecidableEq

/-- `StateManager.is_file_uploaded`: membership of the digest in the
upload history. -/
def is_file_uploaded (sm : SMState) (h : Digest) : Bool :=
  (dictGet sm.upload_history h).isSome

/-- `StateManager.add_upload_to_history`: records
`{filename, upload_date := now, video_id}` under the digest. -/
def add_upload_to_history (sm : SMState) (h : Digest)
    (filename : String) (vid : String) (now : Int) : SMState :=
  { sm with upload_history :=
      dictSet sm.upload_history h ⟨filename, now, vid⟩ }

/-- `StateManager.set_upload_state`: builds a fresh
`{state, timestamp}` record, adds the retry fields only when they are
passed, and assigns it to the path's key, replacing any previous
record in its entirety. -/
def set_upload_state (sm : SMState) (p : Path) (st : UpState)
    (retry_count : Option Nat) (next_retry_time : Option Int)
    (now : Int) : SMState :=
  { sm with upload_states :=
      dictSet sm.upload_states p ⟨st, now, retry_count, next_retry_time⟩ }

/-- `StateManager.get_retry_count`: the record's `retry_count` with
default `0`, and `0` for an unknown path. -/
def get_retry_count (sm : SMState) (p : Path) : Nat :=
  match dictGet sm.upload_states p with
  | some si => si.retry_count.getD 0
  | none => 0

/-- `StateManager.record_quota_hit`: sets `last_quota_hit` to the
current time. -/
def record_quota_hit (sm : SMState) (now : Int) : SMState :=
  { sm with last_quota_hit := some now }

/-- `StateManager.reset_incomplete_uploads_to_pending`: iterates over
a snapshot of the upload-state entries and, for each record in state
`uploading` whose path still exists on disk (oracle `onDisk`), calls
`set_upload_state(path, 'pending')`, counting the resets. -/
def reset_incomplete_uploads_to_pending (onDisk : Path → Bool)
    (now : Int) (sm : SMState) : SMState × Nat :=
  sm.upload_states.foldl
    (fun acc e =>
      if e.2.state = UpState.uploading ∧ onDisk e.1 = true then
        (set_upload_state acc.1 e.1 UpState.pending none none now,
         acc.2 + 1)
      else acc)
    (sm, 0)

/-- The per-entry effect of `reset_incomplete_uploads_to_pending`: an
`uploading` record whose path exists becomes a fresh `pending` record,
every other record is unchanged. -/
def reset_entry (onDisk : Path → Bool) (now : Int)
    (e : Path × StateInfo) : Path × StateInfo :=
  if e.2.state = UpState.uploading ∧ onDisk e.1 = true then
    (e.1, ⟨UpState.pending, now, none, none⟩)
  else e

/-- `StateManager.get_playlist_sort_state`: the saved checkpoint, but
only when it is for the requested playlist. -/
def get_playlist_sort_state (sm : SMState) (pid : String) :
    Option SortCkpt :=
  match sm.playlist_sort_state with
  | none => none
  | some ck => if ck.playlist_id = pid then some ck else none

/-- `StateManager.save_playlist_sort_state`. -/
def save_playlist_sort_state (sm : SMState) (pid : String)
    (items : List Item) (lastPos : Int) : SMState :=
  { sm with playlist_sort_state := some ⟨pid, items, lastPos⟩ }

/-- `StateManager.clear_playlist_sort_state`. -/
def clear_playlist_sort_state (sm : SMState) : SMState :=
  { sm with playlist_sort_state := none }

/-! ### `state_manager.py`: atomic write and tolerant load -/

/-- A JSON value, as loaded by `json.load`. -/
inductive JVal where
  | null
  | bool (b : Bool)
  | num (n : Int)
  | str (s : String)
  | arr (elems : List JVal)
  | obj (entries : List (String × JVal))

/-- What one state file holds, from the point of view of an observer:
nothing yet, a partially written serialization of a record, or the
complete serialization of a record. -/
inductive FileData where
  | partialData (of : JVal)
  | complete (j : JVal)

/-- A file system of state files. -/
abbrev AFS := Path → Option FileData

/-- Point update of a state-file file system. -/
def updateAFS (fs : AFS) (p : Path) (c : Option FileData) : AFS :=
  fun q => if q = p then c else fs q

/-- Failure points of `StateManager._atomic_write_json`:
`jsonDump` = an exception inside `json.dump`, before `temp_path` is
recorded; `flushFsync` = an exception in `flush`/`fsync`, after
`temp_path` is recorded; `renameStep` = an exception in
`os.replace`/`os.rename`. -/
inductive AWFail where
  | jsonDump
  | flushFsync
  | renameStep
deriving DecidableEq, Repr

/-- `StateManager._atomic_write_json`, as the sequence of file-system
states an observer can see, plus the outcome (`Except.error ()` when
`StateManagerError` is raised). The temporary file `tmp` is the fresh
name produced by `NamedTemporaryFile` in the target's directory. The
exception handler removes the temporary file only when `temp_path`
is already recorded, i.e. for failures after `json.dump` returned. -/
def atomic_write_json (fs : AFS) (target tmp : Path) (d : JVal)
    (failAt : Option AWFail) : Except Unit AFS × List AFS :=
  let s1 := updateAFS fs tmp (some (FileData.partialData d))
  match failAt with
  | some AWFail.jsonDump =>
    -- json.dump raised mid-write: `temp_path` was never assigned, so
    -- the cleanup in the handler is skipped and `tmp` is left behind
    (Except.error (), [fs, s1])
  | some AWFail.flushFsync =>
    -- flush or fsync raised: `temp_path` is known, handler removes it
    (Except.error (), [fs, s1, updateAFS fs tmp none])
  | some AWFail.renameStep =>
    -- the rename raised: the fully written temp file is removed
    let s2 := updateAFS fs tmp (some (FileData.complete d))
    (Except.error (), [fs, s1, s2, updateAFS fs tmp none])
  | none =>
    let s2 := updateAFS fs tmp (some (FileData.complete d))
    let s3 := updateAFS (updateAFS fs tmp none) target
      (some (FileData.complete d))
    (Except.ok s3, [fs, s1, s2, s3])

/-- What a state file contains when `_load_json_with_validation` opens
it: absent, not parseable as JSON, or a parsed JSON value. -/
inductive LoadedFile where
  | absent
  | malformed
  | wellFormed (j : JVal)

/-- Result of `_load_json_with_validation`: the returned record and
the path of the `.corrupt.` backup copy, when one was created. -/
structure LoadResult where
  data : JVal
  backupPath : Option String

/-- `StateManager._load_json_with_validation`: an absent file yields
the empty record; a JSON decode error backs the file up as
`<name>.corrupt.<unixtime>` and yields the empty record; a parsed
file that fails the validator raises `ValueError`, which the generic
handler turns into the empty record without creating any backup; a
validated file is returned as loaded. -/
def load_json_with_validation (filepath : String) (file : LoadedFile)
    (validator : Option (JVal → Bool)) (unixtime : Nat) : LoadResult :=
  match file with
  | LoadedFile.absent => ⟨JVal.obj [], none⟩
  | LoadedFile.malformed =>
    ⟨JVal.obj [], some (filepath ++ ".corrupt." ++ toString unixtime)⟩
  | LoadedFile.wellFormed j =>
    match validator with
    | none => ⟨j, none⟩
    | some v => if v j then ⟨j, none⟩ else ⟨JVal.obj [], none⟩

/-- `StateManager._validate_upload_history_schema`: the data is a dict
whose every value is a dict containing the keys `filename`,
`upload_date` and `video_id`. -/
def validate_upload_history_schema : JVal → Bool
  | JVal.obj entries =>
    entries.all fun e =>
      match e.2 with
      | JVal.obj fields =>
        (["filename", "upload_date", "video_id"] : List String).all
          fun k => fields.any fun f => f.1 == k
      | _ => false
  | _ => false

/-! ### `upload_manager.py`: UploadManager -/

/-- Cooldown length: `QUOTA_COOLDOWN_HOURS` plus
`QUOTA_COOLDOWN_BUFFER_MINUTES`, in seconds. -/
def cooldown_delta : Int :=
  QUOTA_COOLDOWN_HOURS * 3600 + QUOTA_COOLDOWN_BUFFER_MINUTES * 60

/-- `UploadManager.is_in_cooldown`: with no recorded quota hit the
answer is `False`; otherwise the answer is whether `now` is before
`last_quota_hit + cooldown_delta`. The marker is assumed valid (the
source's parse-failure handler also returns `False`). -/
def is_in_cooldown (sm : SMState) (now : Int) : Bool :=
  match sm.last_quota_hit with
  | none => false
  | some t => now < t + cooldown_delta

/-- Outcome of the remote `videos().insert(...)` upload call:
a video id, an `HttpError` whose content signals `quotaExceeded` /
`uploadLimitExceeded`, or any other `HttpError` (re-raised into the
generic failure handler). -/
inductive RemoteResult where
  | ok (video_id : String)
  | quotaExceeded
  | httpOther
deriving DecidableEq, Repr

/-- Outcome of `_add_video_to_playlist`: `ok` (video added),
`probeMissing` (the existence probe found no playlist, raising
`UploadError`), `notFound` (a not-found `HttpError`, raising
`UploadError`), or `otherFailure` (any other error: the method
returns `False`, which the caller ignores). -/
inductive PlaylistAdd where
  | ok
  | probeMissing
  | notFound
  | otherFailure
deriving DecidableEq, Repr

/-- Environment of one `upload_video` call: the remote outcomes and
the file-system oracle values consumed by the inner `safe_move`.
`destination` stands for
`os.path.join(get_uploaded_folder_path(dirname(filepath)), basename(filepath))`
and `altDest` for its timestamp-suffixed variant. -/
structure UploadEnv where
  remote : RemoteResult
  playlist : PlaylistAdd
  destination : Path
  altDest : Path
  copy : CopyOutcome
  deleteOk : Nat → Bool
  now : Int

/-- The kinds of messages `upload_video` returns (stand-ins for the
formatted strings of the source). -/
inductive UVMsg where
  | fileNotFound
  | fileTooLarge
  | hashFailed
  | alreadyUploaded
  | playlistAddFailed
  | retryScheduled (attempt : Nat)
  | permanentFailure
  | uploadSuccess
deriving DecidableEq, Repr

/-- The result value of `upload_video`: either the returned triple
`(success, message-kind, video_id)` or a propagated
`QuotaExceededError`. -/
inductive UVOutcome where
  | returned (success : Bool) (msg : UVMsg) (video_id : Option String)
  | quotaRaised
deriving DecidableEq, Repr

/-- Full result of one `upload_video` call: outcome, the state
manager's state, the file system, and how many remote upload calls
were issued. -/
structure UVResult where
  outcome : UVOutcome
  sm : SMState
  fs : FS
  uploadCalls : Nat

/-- The generic exception handler of `upload_video`: reads the current
retry count (from the record just overwritten by the transition to
`uploading`, so the stored count is gone), increments it, and either
schedules the next retry with exponential backoff or marks the file
permanently failed. -/
def upload_failure_retry (sm : SMState) (fs : FS) (filepath : Path)
    (now : Int) (calls : Nat) : UVResult :=
  let retry_count := get_retry_count sm filepath + 1
  if retry_count < MAX_UPLOAD_RETRY_ATTEMPTS then
    let delay : Int :=
      min (INITIAL_RETRY_DELAY_SECONDS * 2 ^ (retry_count - 1))
        MAX_RETRY_DELAY_SECONDS
    let sm2 := set_upload_state sm filepath UpState.failed
      (some retry_count) (some (now + delay)) now
    ⟨UVOutcome.returned false (UVMsg.retryScheduled retry_count) none,
      sm2, fs, calls⟩
  else
    let sm2 := set_upload_state sm filepath UpState.failed
      (some retry_count) none now
    ⟨UVOutcome.returned false UVMsg.permanentFailure none, sm2, fs, calls⟩

/-- Whether step 9 of `upload_video` ends in the `UploadError` handler:
a playlist is selected and `_add_video_to_playlist` raised
(`probeMissing` or `notFound`); its boolean return value for other
failures is ignored by the caller. -/
def playlist_err (selPlaylist : Option String) (pl : PlaylistAdd) : Bool :=
  match selPlaylist with
  | none => false
  | some _ =>
    match pl with
    | PlaylistAdd.probeMissing => true
    | PlaylistAdd.notFound => true
    | PlaylistAdd.ok => false
    | PlaylistAdd.otherFailure => false

/-- `UploadManager.upload_video` for one file, over the environment
oracle `env` and the playlist selection `selPlaylist`. Follows the
source step by step: existence check, size check, hashing, duplicate
short-circuit, transition to `uploading`, the remote call (with the
quota handler recording the hit and raising `QuotaExceededError`,
whose outer handler marks the file `failed` and re-raises), the
playlist insertion (an `UploadError` marks the file `failed` and
returns the video id alongside the failure), the safe move (whose
failure is only logged), the history record, and the transition to
`completed`. -/
def upload_video (hash : Content → Digest) (selPlaylist : Option String)
    (env : UploadEnv) (sm : SMState) (fs : FS) (filepath : Path) :
    UVResult :=
  match fs filepath with
  | none => ⟨UVOutcome.returned false UVMsg.fileNotFound none, sm, fs, 0⟩
  | some content =>
    if MAX_FILE_SIZE_BYTES < content.length then
      ⟨UVOutcome.returned false UVMsg.fileTooLarge none, sm, fs, 0⟩
    else
      let file_hash := hash content
      if is_file_uploaded sm file_hash then
        ⟨UVOutcome.returned false UVMsg.alreadyUploaded none, sm, fs, 0⟩
      else
        let sm1 := set_upload_state sm filepath UpState.uploading
          none none env.now
        match env.remote with
        | RemoteResult.quotaExceeded =>
          let sm2 := record_quota_hit sm1 env.now
          let sm3 := set_upload_state sm2 filepath UpState.failed
            none none env.now
          ⟨UVOutcome.quotaRaised, sm3, fs, 1⟩
        | RemoteResult.httpOther =>
          upload_failure_retry sm1 fs filepath env.now 1
        | RemoteResult.ok vid =>
          if playlist_err selPlaylist env.playlist then
            let sm2 := set_upload_state sm1 filepath UpState.failed
              none none env.now
            ⟨UVOutcome.returned false UVMsg.playlistAddFailed (some vid),
              sm2, fs, 1⟩
          else
            let mv := safe_move hash fs filepath env.destination
              (some file_hash) env.altDest env.copy env.deleteOk
            let sm2 := add_upload_to_history sm1 file_hash filepath vid
              env.now
            let sm3 := set_upload_state sm2 filepath UpState.completed
              none none env.now
            ⟨UVOutcome.returned true UVMsg.uploadSuccess (some vid),
              sm3, mv.fs, 1⟩

/-- Result of `upload_files_from_folder`: the statistics dict plus the
list of files for which `upload_video` was actually invoked. -/
structure BatchResult where
  success_count : Nat
  fail_count : Nat
  skip_count : Nat
  total_files : Nat
  quota_exceeded : Bool
  attempted : List Path
  sm : SMState
  fs : FS

/-- The per-file loop of `upload_files_from_folder`: checks the stop
callback, invokes `upload_video`, counts a success or a skip, and on
`QuotaExceededError` sets the quota flag and stops processing the
remaining files. -/
def batch_loop (hash : Content → Digest) (selPlaylist : Option String)
    (envs : Path → UploadEnv) (shouldStop : Nat → Bool) :
    List Path → Nat → SMState → FS → BatchResult
  | [], _, sm, fs => ⟨0, 0, 0, 0, false, [], sm, fs⟩
  | f :: rest, i, sm, fs =>
    if shouldStop i then ⟨0, 0, 0, 0, false, [], sm, fs⟩
    else
      let r := upload_video hash selPlaylist (envs f) sm fs f
      match r.outcome with
      | UVOutcome.quotaRaised =>
        ⟨0, 0, 0, 0, true, [f], r.sm, r.fs⟩
      | UVOutcome.returned true _ _ =>
        let b := batch_loop hash selPlaylist envs shouldStop rest
          (i + 1) r.sm r.fs
        { b with success_count := b.success_count + 1,
                 attempted := f :: b.attempted }
      | UVOutcome.returned false _ _ =>
        let b := batch_loop hash selPlaylist envs shouldStop rest
          (i + 1) r.sm r.fs
        { b with skip_count := b.skip_count + 1,
                 attempted := f :: b.attempted }

/-- `UploadManager.upload_files_from_folder` over the discovered file
list `files` (the result of `get_video_files`). -/
def upload_files_from_folder (hash : Content → Digest)
    (selPlaylist : Option String) (envs : Path → UploadEnv)
    (shouldStop : Nat → Bool) (files : List Path) (sm : SMState)
    (fs : FS) : BatchResult :=
  let b := batch_loop hash selPlaylist envs shouldStop files 0 sm fs
  { b with total_files := files.length }

/-! ### `upload_manager.py`: resumable playlist sort -/

/-- Lexicographic order on code-point sequences: Python's string
comparison. -/
def lexLe : List Nat → List Nat → Bool
  | [], _ => true
  | _ :: _, [] => false
  | a :: as, b :: bs =>
    if a < b then true else if b < a then false else lexLe as bs

/-- The sort key `x['title'].lower()`: the title's code points with
letters lowered. -/
def title_key (s : String) : List Nat :=
  s.data.map fun c => (Char.toLower c).toNat

/-- Step 2 of `sort_playlist_alphabetically`:
`sorted_items.sort(key=lambda x: x['title'].lower())`, a stable
ascending sort by the lowered title. -/
def sort_items (l : List Item) : List Item :=
  List.insertionSort
    (fun a b => lexLe (title_key a.title) (title_key b.title) = true) l

/-- Outcome of one `playlistItems().update(...)` position commit:
success, an `HttpError` signalling quota exhaustion, or any other
`HttpError` (counted as failed and skipped). -/
inductive CommitOutcome where
  | ok
  | quota
  | err
deriving DecidableEq, Repr

/-- Accumulated result of the position-update loop (step 3 of
`sort_playlist_alphabetically`): the position commits durably
confirmed by the remote service, the counters, the quota flag, and
`last_successful_position`. -/
structure CommitLoopRes where
  commits : List (Nat × Item)
  updated_count : Nat
  failed_count : Nat
  quota_exceeded : Bool
  last_successful_position : Int
deriving DecidableEq, Repr

/-- The position-update loop over the remaining positions, with the
per-position outcome given by `oracle`: a successful update appends
the commit and advances `last_successful_position`; quota exhaustion
sets `failed_count` to the number of remaining items and stops; any
other error is counted and skipped. -/
def commit_loop (oracle : Nat → CommitOutcome) (sorted : List Item) :
    List Nat → Nat → Nat → Int → CommitLoopRes
  | [], updated, failedc, lastSucc => ⟨[], updated, failedc, false, lastSucc⟩
  | pos :: rest, updated, failedc, lastSucc =>
    match oracle pos with
    | CommitOutcome.quota =>
      ⟨[], updated, sorted.length - updated, true, lastSucc⟩
    | CommitOutcome.err =>
      commit_loop oracle sorted rest updated (failedc + 1) lastSucc
    | CommitOutcome.ok =>
      let r := commit_loop oracle sorted rest (updated + 1) failedc (pos : Int)
      { r with commits := (pos, sorted.getD pos default) :: r.commits }

/-- Result of `sort_playlist_alphabetically`: the `(success, message,
items_sorted)` triple (message elided), the state manager's state,
and the position commits confirmed by the remote service. -/
structure SortResult where
  success : Bool
  items_sorted : Nat
  sm : SMState
  commits : List (Nat × Item)

/-- Steps 3 and 4 of `sort_playlist_alphabetically`: run the
position-update loop from `start`, then either record the quota hit
and persist the checkpoint at the last successful position, or report
a partial result, or clear the checkpoint on full success. -/
def sort_commit_phase (oracle : Nat → CommitOutcome) (pid : String)
    (now : Int) (sorted : List Item) (start : Nat) (sm : SMState) :
    SortResult :=
  let r := commit_loop oracle sorted
    (List.range' start (sorted.length - start)) start 0 ((start : Int) - 1)
  if r.quota_exceeded then
    let sm1 := record_quota_hit sm now
    let sm2 := save_playlist_sort_state sm1 pid sorted
      r.last_successful_position
    ⟨false, r.updated_count, sm2, r.commits⟩
  else if 0 < r.failed_count then
    ⟨false, r.updated_count, sm, r.commits⟩
  else
    ⟨true, r.updated_count, clear_playlist_sort_state sm, r.commits⟩

/-- `UploadManager.sort_playlist_alphabetically`: when a checkpoint
for this playlist exists, the fetch and sort phases are skipped and
the commits resume at `last_position + 1` over the previously
computed order; otherwise the items are fetched (`svcItems`), an
empty playlist returns early, and the commits start at position 0
over the freshly sorted order. -/
def sort_playlist_alphabetically (svcItems : List Item)
    (oracle : Nat → CommitOutcome) (pid : String) (now : Int)
    (sm : SMState) : SortResult :=
  match get_playlist_sort_state sm pid with
  | some saved =>
    sort_commit_phase oracle pid now saved.sorted_items
      (saved.last_position + 1).toNat sm
  | none =>
    if svcItems.isEmpty then ⟨false, 0, sm, []⟩
    else sort_commit_phase oracle pid now (sort_items svcItems) 0 sm

/-- The source digest `verify_copy` checks the destination against:
the cached digest when one was supplied, otherwise the digest of the
source's content. -/
def source_digest (hash : Content → Digest) (cached : Option Digest)
    (c : Content) : Digest :=
  cached.getD (hash c)

/-! ### Concrete fixtures used to instantiate the theorems -/

/-- A file system holding exactly one file. -/
def singleFS (p : Path) (c : Content) : FS :=
  fun q => if q = p then some c else none

/-- A digest function usable in concrete instantiations (any function
on contents will do, the code only compares digests). -/
def lenHash : Content → Digest := List.length

/-- The empty state-manager state (all four records empty). -/
def emptySM : SMState := ⟨[], [], none, none⟩

/-- A concrete upload environment whose remote call succeeds. -/
def uvEnvOk : UploadEnv :=
  ⟨RemoteResult.ok "vid1", PlaylistAdd.ok, "up_a.mp4", "alt.mp4",
   CopyOutcome.ok [5], fun _ => true, 100⟩

/-- A second concrete upload environment with a succeeding remote. -/
def uvEnvOk2 : UploadEnv :=
  ⟨RemoteResult.ok "vid2", PlaylistAdd.ok, "up_b.mp4", "alt2.mp4",
   CopyOutcome.ok [5], fun _ => true, 200⟩

/-- A concrete upload environment whose remote call reports quota
exhaustion. -/
def uvEnvQuota : UploadEnv :=
  ⟨RemoteResult.quotaExceeded, PlaylistAdd.ok, "up_q.mp4", "alt.mp4",
   CopyOutcome.ok [7], fun _ => true, 50⟩

/-- A concrete upload environment whose remote upload succeeds but
whose playlist existence probe finds no playlist. -/
def uvEnvPlGone : UploadEnv :=
  ⟨RemoteResult.ok "vid1", PlaylistAdd.probeMissing, "up_c.mp4",
   "alt.mp4", CopyOutcome.ok [9], fun _ => true, 10⟩

/-- The empty state-file file system. -/
def emptyAFS : AFS := fun _ => none

/-! ## Lemmas -/

theorem updateFS_self (fs : FS) (p : Path) (c : Option Content) :
    updateFS fs p c p = c := by
  simp [updateFS]

theorem updateFS_ne (fs : FS) {p q : Path} (c : Option Content)
    (h : q ≠ p) : updateFS fs p c q = fs q := by
  simp [updateFS, h]

theorem scv_fs_src (hash : Content → Digest) (fs : FS) (src dst : Path)
    (cached : Option Digest) (copy : CopyOutcome) :
    (safe_copy_and_verify hash fs src dst cached copy).2 src = fs src := by
  unfold safe_copy_and_verify
  cases hsrc : fs src with
  | none => simp [hsrc]
  | some c =>
    by_cases hd : src = dst
    · subst hd; simp [hsrc]
    · cases copy with
      | err leftover =>
        cases leftover with
        | none => simp [hd, hsrc]
        | some lc => simp [hd, updateFS, hsrc]
      | ok written =>
        by_cases hv :
            verify_copy hash (updateFS fs dst (some written)) src dst cached
        · simp [hd, hv, updateFS, hsrc]
        · simp [hd, hv, updateFS, hsrc]

theorem scv_true_char (hash : Content → Digest) (fs : FS)
    (src dst : Path) (cached : Option Digest) (copy : CopyOutcome)
    (c : Content) (hsrc : fs src = some c) :
    (safe_copy_and_verify hash fs src dst cached copy).1 = true ↔
    ∃ w, copy = CopyOutcome.ok w ∧ src ≠ dst ∧
      source_digest hash cached c = hash w := by
  unfold safe_copy_and_verify
  rw [hsrc]
  by_cases hd : src = dst
  · simp [hd]
  · cases copy with
    | err leftover =>
      cases leftover <;> simp [hd]
    | ok written =>
      have hver :
          verify_copy hash (updateFS fs dst (some written)) src dst cached
            = (source_digest hash cached c == hash written) := by
        unfold verify_copy compute_file_hash source_digest
        cases cached with
        | none =>
          simp [updateFS_self, updateFS_ne fs _ hd, hsrc]
        | some h0 =>
          simp [updateFS_self]
      by_cases hv : source_digest hash cached c = hash written
      · simp [hd, hver, hv]
      · simp only [hd, if_neg hd, hver]
        simp [hv]

theorem scv_true_dst (hash : Content → Digest) (fs : FS)
    (src dst : Path) (cached : Option Digest) (w : Content)
    (htrue : (safe_copy_and_verify hash fs src dst cached
      (CopyOutcome.ok w)).1 = true) :
    (safe_copy_and_verify hash fs src dst cached
      (CopyOutcome.ok w)).2 dst = some w := by
  unfold safe_copy_and_verify at htrue ⊢
  cases hsrc : fs src with
  | none => rw [hsrc] at htrue; simp at htrue
  | some c =>
    rw [hsrc] at htrue
    by_cases hd : src = dst
    · simp [hd] at htrue
    · by_cases hv :
          verify_copy hash (updateFS fs dst (some w)) src dst cached
      · simp [hd, hv, updateFS]
      · simp [hd, hv] at htrue

theorem scv_cleanup (hash : Content → Digest) (fs : FS)
    (src dst : Path) (cached : Option Digest) (w : Content)
    (c : Content) (hsrc : fs src = some c) (hd : src ≠ dst)
    (hv : source_digest hash cached c ≠ hash w) :
    (safe_copy_and_verify hash fs src dst cached (CopyOutcome.ok w)).1
      = false ∧
    (safe_copy_and_verify hash fs src dst cached
      (CopyOutcome.ok w)).2 dst = none := by
  unfold safe_copy_and_verify
  rw [hsrc]
  have hver :
      verify_copy hash (updateFS fs dst (some w)) src dst cached
        = (source_digest hash cached c == hash w) := by
    unfold verify_copy compute_file_hash source_digest
    cases cached with
    | none => simp [updateFS_self, updateFS_ne fs _ hd, hsrc]
    | some h0 => simp [updateFS_self]
  simp [hd, hver, hv, updateFS_self]

theorem safe_move_cv_false (hash : Content → Digest) (fs : FS)
    (src dst : Path) (cached : Option Digest) (altDest : Path)
    (copy : CopyOutcome) (deleteOk : Nat → Bool)
    (h : (safe_copy_and_verify hash fs src (move_dest fs dst altDest)
      cached copy).1 = false) :
    safe_move hash fs src dst cached altDest copy deleteOk =
      ⟨false,
       (safe_copy_and_verify hash fs src (move_dest fs dst altDest)
         cached copy).2,
       move_dest fs dst altDest⟩ := by
  unfold safe_move
  simp [h]

theorem safe_move_cv_true_del (hash : Content → Digest) (fs : FS)
    (src dst : Path) (cached : Option Digest) (altDest : Path)
    (copy : CopyOutcome) (deleteOk : Nat → Bool)
    (h1 : (safe_copy_and_verify hash fs src (move_dest fs dst altDest)
      cached copy).1 = true)
    (h2 : (List.range MAX_FILE_OPERATION_RETRIES).any deleteOk = true) :
    safe_move hash fs src dst cached altDest copy deleteOk =
      ⟨true,
       updateFS (safe_copy_and_verify hash fs src
         (move_dest fs dst altDest) cached copy).2 src none,
       move_dest fs dst altDest⟩ := by
  unfold safe_move
  simp [h1, h2]

theorem safe_move_cv_true_nodel (hash : Content → Digest) (fs : FS)
    (src dst : Path) (cached : Option Digest) (altDest : Path)
    (copy : CopyOutcome) (deleteOk : Nat → Bool)
    (h1 : (safe_copy_and_verify hash fs src (move_dest fs dst altDest)
      cached copy).1 = true)
    (h2 : (List.range MAX_FILE_OPERATION_RETRIES).any deleteOk = false) :
    safe_move hash fs src dst cached altDest copy deleteOk =
      ⟨false,
       (safe_copy_and_verify hash fs src (move_dest fs dst altDest)
         cached copy).2,
       move_dest fs dst altDest⟩ := by
  unfold safe_move
  simp [h1, h2]

theorem dictGet_dictSet_self {K V : Type} [DecidableEq K]
    (l : List (K × V)) (k : K) (v : V) :
    dictGet (dictSet l k v) k = some v := by
  induction l with
  | nil => simp [dictSet, dictGet]
  | cons e rest ih =>
    obtain ⟨k0, v0⟩ := e
    by_cases h : k0 = k
    · simp [dictSet, dictGet, h]
    · simp [dictSet, dictGet, h, ih]

theorem dictGet_dictSet_ne {K V : Type} [DecidableEq K]
    (l : List (K × V)) (k k' : K) (v : V) (h : k' ≠ k) :
    dictGet (dictSet l k v) k' = dictGet l k' := by
  have h2 : k ≠ k' := fun he => h he.symm
  induction l with
  | nil => simp [dictSet, dictGet, h2]
  | cons e rest ih =>
    obtain ⟨k0, v0⟩ := e
    by_cases h0 : k0 = k
    · subst h0
      simp [dictSet, dictGet, h2]
    · simp [dictSet, dictGet, h0, ih]

theorem dictSet_append_not_mem {K V : Type} [DecidableEq K]
    (l1 l2 : List (K × V)) (k : K) (v : V)
    (h : k ∉ l1.map Prod.fst) :
    dictSet (l1 ++ l2) k v = l1 ++ dictSet l2 k v := by
  induction l1 with
  | nil => rfl
  | cons e rest ih =>
    obtain ⟨k0, v0⟩ := e
    simp only [List.map_cons, List.mem_cons] at h
    push_neg at h
    obtain ⟨h1, h2⟩ := h
    have hk0 : ¬ k0 = k := fun he => h1 he.symm
    simp [dictSet, hk0, ih h2]

theorem reset_foldl_aux (onDisk : Path → Bool) (now : Int) :
    ∀ (todo done : List (Path × StateInfo)) (sm : SMState) (c : Nat),
      sm.upload_states = done ++ todo →
      (∀ k ∈ todo.map Prod.fst, k ∉ done.map Prod.fst) →
      (todo.map Prod.fst).Nodup →
      todo.foldl
        (fun acc e =>
          if e.2.state = UpState.uploading ∧ onDisk e.1 = true then
            (set_upload_state acc.1 e.1 UpState.pending none none now,
             acc.2 + 1)
          else acc)
        (sm, c) =
      ({ sm with upload_states :=
          done ++ todo.map (reset_entry onDisk now) },
       c + todo.countP
         (fun e => decide (e.2.state = UpState.uploading ∧
           onDisk e.1 = true))) := by
  intro todo
  induction todo with
  | nil =>
    intro done sm c hsm _ _
    obtain ⟨h1, h2, h3, h4⟩ := sm
    simp only [List.foldl_nil, List.map_nil, List.append_nil,
      List.countP_nil, Nat.add_zero]
    simp only [List.append_nil] at hsm
    simp [hsm]
  | cons e rest ih =>
    intro done sm c hsm hdisj hnodup
    obtain ⟨p, si⟩ := e
    simp only [List.map_cons, List.nodup_cons] at hnodup
    obtain ⟨hpnotin, hnodup2⟩ := hnodup
    have hpdone : p ∉ done.map Prod.fst := by
      exact hdisj p (by simp)
    simp only [List.foldl_cons]
    by_cases hcond : si.state = UpState.uploading ∧ onDisk p = true
    · rw [if_pos hcond]
      have hset : (set_upload_state sm p UpState.pending none none
          now).upload_states =
          (done ++ [(p, (⟨UpState.pending, now, none, none⟩ : StateInfo))])
            ++ rest := by
        show dictSet sm.upload_states p _ = _
        rw [hsm, dictSet_append_not_mem _ _ _ _ hpdone]
        simp [dictSet]
      have ihres := ih (done ++ [(p, ⟨UpState.pending, now, none, none⟩)])
        (set_upload_state sm p UpState.pending none none now) (c + 1)
        hset
        (by
          intro k hk
          simp only [List.map_append, List.map_cons, List.map_nil,
            List.mem_append, List.mem_singleton]
          rintro (hkd | hkp)
          · exact hdisj k (by simp [hk]) hkd
          · exact hpnotin (hkp ▸ hk))
        hnodup2
      rw [ihres]
      have hsm2 : ∀ X, ({ set_upload_state sm p UpState.pending none
          none now with upload_states := X } : SMState) =
          { sm with upload_states := X } := by
        intro X
        obtain ⟨h1, h2, h3, h4⟩ := sm
        rfl
      rw [hsm2]
      have hus : (done ++ [(p, (⟨UpState.pending, now, none, none⟩ :
          StateInfo))]) ++ rest.map (reset_entry onDisk now) =
          done ++ ((p, si) :: rest).map (reset_entry onDisk now) := by
        simp [List.append_assoc, reset_entry, hcond]
      have hcnt : ((p, si) :: rest).countP
          (fun e => decide (e.2.state = UpState.uploading ∧
            onDisk e.1 = true)) =
          rest.countP
          (fun e => decide (e.2.state = UpState.uploading ∧
            onDisk e.1 = true)) + 1 := by
        obtain ⟨hc1, hc2⟩ := hcond
        simp [List.countP_cons, hc1, hc2]
      rw [hus]
      simp only [Prod.mk.injEq]
      refine ⟨trivial, ?_⟩
      rw [hcnt]
      omega
    · rw [if_neg hcond]
      have hsm2 : sm.upload_states = (done ++ [(p, si)]) ++ rest := by
        rw [hsm]; simp
      have ihres := ih (done ++ [(p, si)]) sm c hsm2
        (by
          intro k hk
          simp only [List.map_append, List.map_cons, List.map_nil,
            List.mem_append, List.mem_singleton]
          rintro (hkd | hkp)
          · exact hdisj k (by simp [hk]) hkd
          · exact hpnotin (hkp ▸ hk))
        hnodup2
      rw [ihres]
      have hus : (done ++ [(p, si)]) ++
          rest.map (reset_entry onDisk now) =
          done ++ ((p, si) :: rest).map (reset_entry onDisk now) := by
        simp [List.append_assoc, reset_entry, hcond]
      have hcnt : ((p, si) :: rest).countP
          (fun e => decide (e.2.state = UpState.uploading ∧
            onDisk e.1 = true)) =
          rest.countP
          (fun e => decide (e.2.state = UpState.uploading ∧
            onDisk e.1 = true)) := by
        simp [List.countP_cons, hcond]
      rw [hus]
      simp only [Prod.mk.injEq]
      exact ⟨trivial, by rw [hcnt]⟩

theorem upload_video_dup (hash : Content → Digest)
    (sel : Option String) (env : UploadEnv) (sm : SMState) (fs : FS)
    (p : Path) (c : Content) (hc : fs p = some c)
    (hsz : c.length ≤ MAX_FILE_SIZE_BYTES)
    (hdup : is_file_uploaded sm (hash c) = true) :
    upload_video hash sel env sm fs p =
      ⟨UVOutcome.returned false UVMsg.alreadyUploaded none, sm, fs, 0⟩ := by
  unfold upload_video
  rw [hc]
  have hlt : ¬ MAX_FILE_SIZE_BYTES < c.length := by omega
  simp [hlt, hdup]

theorem upload_video_eq_quota (hash : Content → Digest)
    (sel : Option String) (env : UploadEnv) (sm : SMState) (fs : FS)
    (p : Path) (c : Content) (hc : fs p = some c)
    (hsz : c.length ≤ MAX_FILE_SIZE_BYTES)
    (hnot : is_file_uploaded sm (hash c) = false)
    (hrem : env.remote = RemoteResult.quotaExceeded) :
    upload_video hash sel env sm fs p =
      ⟨UVOutcome.quotaRaised,
       set_upload_state
         (record_quota_hit
           (set_upload_state sm p UpState.uploading none none env.now)
           env.now)
         p UpState.failed none none env.now,
       fs, 1⟩ := by
  unfold upload_video
  rw [hc]
  have hlt : ¬ MAX_FILE_SIZE_BYTES < c.length := by omega
  simp [hlt, hnot, hrem]

theorem upload_video_eq_httpOther (hash : Content → Digest)
    (sel : Option String) (env : UploadEnv) (sm : SMState) (fs : FS)
    (p : Path) (c : Content) (hc : fs p = some c)
    (hsz : c.length ≤ MAX_FILE_SIZE_BYTES)
    (hnot : is_file_uploaded sm (hash c) = false)
    (hrem : env.remote = RemoteResult.httpOther) :
    upload_video hash sel env sm fs p =
      upload_failure_retry
        (set_upload_state sm p UpState.uploading none none env.now)
        fs p env.now 1 := by
  unfold upload_video
  rw [hc]
  have hlt : ¬ MAX_FILE_SIZE_BYTES < c.length := by omega
  simp [hlt, hnot, hrem]

theorem upload_video_eq_playlist_err (hash : Content → Digest)
    (sel : Option String) (env : UploadEnv) (sm : SMState) (fs : FS)
    (p : Path) (c : Content) (vid : String) (hc : fs p = some c)
    (hsz : c.length ≤ MAX_FILE_SIZE_BYTES)
    (hnot : is_file_uploaded sm (hash c) = false)
    (hrem : env.remote = RemoteResult.ok vid)
    (herr : playlist_err sel env.playlist = true) :
    upload_video hash sel env sm fs p =
      ⟨UVOutcome.returned false UVMsg.playlistAddFailed (some vid),
       set_upload_state
         (set_upload_state sm p UpState.uploading none none env.now)
         p UpState.failed none none env.now,
       fs, 1⟩ := by
  unfold upload_video
  rw [hc]
  have hlt : ¬ MAX_FILE_SIZE_BYTES < c.length := by omega
  simp [hlt, hnot, hrem, herr]

theorem upload_video_eq_ok (hash : Content → Digest)
    (sel : Option String) (env : UploadEnv) (sm : SMState) (fs : FS)
    (p : Path) (c : Content) (vid : String) (hc : fs p = some c)
    (hsz : c.length ≤ MAX_FILE_SIZE_BYTES)
    (hnot : is_file_uploaded sm (hash c) = false)
    (hrem : env.remote = RemoteResult.ok vid)
    (herr : playlist_err sel env.playlist = false) :
    upload_video hash sel env sm fs p =
      ⟨UVOutcome.returned true UVMsg.uploadSuccess (some vid),
       set_upload_state
         (add_upload_to_history
           (set_upload_state sm p UpState.uploading none none env.now)
           (hash c) p vid env.now)
         p UpState.completed none none env.now,
       (safe_move hash fs p env.destination (some (hash c)) env.altDest
         env.copy env.deleteOk).fs,
       1⟩ := by
  unfold upload_video
  rw [hc]
  have hlt : ¬ MAX_FILE_SIZE_BYTES < c.length := by omega
  simp [hlt, hnot, hrem, herr]

theorem upload_failure_retry_not_success (sm : SMState) (fs : FS)
    (p : Path) (now : Int) (calls : Nat) (msg : UVMsg)
    (vid : Option String) :
    (upload_failure_retry sm fs p now calls).outcome ≠
      UVOutcome.returned true msg vid := by
  unfold upload_failure_retry
  by_cases h : get_retry_count sm p + 1 < MAX_UPLOAD_RETRY_ATTEMPTS
  · simp [h]
  · simp [h]

theorem commit_loop_all_ok (oracle : Nat → CommitOutcome)
    (sorted : List Item) :
    ∀ (positions : List Nat) (u f : Nat) (ls : Int),
      (∀ pos ∈ positions, oracle pos = CommitOutcome.ok) →
      (commit_loop oracle sorted positions u f ls).commits =
        positions.map (fun i => (i, sorted.getD i default)) ∧
      (commit_loop oracle sorted positions u f ls).updated_count =
        u + positions.length ∧
      (commit_loop oracle sorted positions u f ls).failed_count = f ∧
      (commit_loop oracle sorted positions u f ls).quota_exceeded =
        false := by
  intro positions
  induction positions with
  | nil =>
    intro u f ls _
    simp [commit_loop]
  | cons pos rest ih =>
    intro u f ls h
    have hp : oracle pos = CommitOutcome.ok := h pos (by simp)
    have ihr := ih (u + 1) f (pos : Int)
      (fun q hq => h q (by simp [hq]))
    simp only [commit_loop, hp]
    refine ⟨?_, ?_, ?_, ?_⟩
    · simp [ihr.1]
    · simp only [List.length_cons]
      have := ihr.2.1
      simp only [this]
      omega
    · simp [ihr.2.2.1]
    · simp [ihr.2.2.2]

theorem commit_loop_quota_at (sorted : List Item) (k : Nat) :
    ∀ (cnt s u f : Nat), s ≤ k → k < s + cnt →
      commit_loop
        (fun i => if i < k then CommitOutcome.ok else
          CommitOutcome.quota)
        sorted (List.range' s cnt) u f ((s : Int) - 1) =
        ⟨(List.range' s (k - s)).map
          (fun i => (i, sorted.getD i default)),
         u + (k - s),
         sorted.length - (u + (k - s)),
         true,
         (k : Int) - 1⟩ := by
  intro cnt
  induction cnt with
  | zero =>
    intro s u f h1 h2
    exfalso
    omega
  | succ cnt ih =>
    intro s u f h1 h2
    rw [show List.range' s (cnt + 1) = s :: List.range' (s + 1) cnt
      from rfl]
    by_cases hsk : s < k
    · simp only [commit_loop, hsk, if_pos]
      have hls : ((s : Int)) = ((s + 1 : Nat) : Int) - 1 := by
        push_cast
        ring
      rw [hls, ih (s + 1) (u + 1) f (by omega) (by omega)]
      simp only [CommitLoopRes.mk.injEq]
      refine ⟨?_, by omega, by omega, trivial, trivial⟩
      rw [show k - s = (k - (s + 1)) + 1 from by omega]
      rw [show List.range' s ((k - (s + 1)) + 1) =
        s :: List.range' (s + 1) (k - (s + 1)) from rfl]
      rfl
    · have hsk2 : s = k := by omega
      subst hsk2
      simp only [commit_loop, lt_irrefl, if_neg, if_false]
      simp [Nat.sub_self]

theorem sort_commit_phase_all_ok (oracle : Nat → CommitOutcome)
    (pid : String) (now : Int) (sorted : List Item) (start : Nat)
    (sm : SMState) (h : ∀ pos, oracle pos = CommitOutcome.ok) :
    sort_commit_phase oracle pid now sorted start sm =
      ⟨true, start + (sorted.length - start),
       clear_playlist_sort_state sm,
       (List.range' start (sorted.length - start)).map
         (fun i => (i, sorted.getD i default))⟩ := by
  unfold sort_commit_phase
  obtain ⟨hc, hu, hf, hq⟩ := commit_loop_all_ok oracle sorted
    (List.range' start (sorted.length - start)) start 0
    ((start : Int) - 1) (fun pos _ => h pos)
  simp [hc, hu, hf, hq, List.length_range']

theorem sort_commit_phase_quota (pid : String) (now : Int)
    (sorted : List Item) (k : Nat) (sm : SMState)
    (hk : k < sorted.length) :
    sort_commit_phase
      (fun i => if i < k then CommitOutcome.ok else CommitOutcome.quota)
      pid now sorted 0 sm =
      ⟨false, k,
       save_playlist_sort_state (record_quota_hit sm now) pid sorted
         ((k : Int) - 1),
       (List.range' 0 k).map (fun i => (i, sorted.getD i default))⟩ := by
  unfold sort_commit_phase
  have hcl := commit_loop_quota_at sorted k (sorted.length - 0) 0 0 0
    (by omega) (by omega)
  rw [hcl]
  simp

/-! ## Claim theorems -/

/-- C1: `safe_move` deletes the source only after the copy at the
(actually used) destination was verified: the destination's digest
equals the cached digest or the source's digest. Any copy or
verification failure returns failure with the source untouched, and a
destination file that fails verification is removed by the guard
itself. -/
theorem safe_move_no_loss (hash : Content → Digest) (fs : FS)
    (src dst : Path) (cached : Option Digest) (altDest : Path)
    (copy : CopyOutcome) (deleteOk : Nat → Bool) :
    let r := safe_move hash fs src dst cached altDest copy deleteOk
    (r.success = false → r.fs src = fs src) ∧
    (∀ c, fs src = some c → r.fs src = none →
      ∃ w, copy = CopyOutcome.ok w ∧
        source_digest hash cached c = hash w ∧ r.fs r.dest = some w) ∧
    (∀ c w, fs src = some c → src ≠ move_dest fs dst altDest →
      copy = CopyOutcome.ok w → source_digest hash cached c ≠ hash w →
      r.success = false ∧ r.fs r.dest = none ∧ r.fs src = some c) := by
  intro r
  by_cases h1 :
      (safe_copy_and_verify hash fs src (move_dest fs dst altDest)
        cached copy).1 = true
  · by_cases h2 : (List.range MAX_FILE_OPERATION_RETRIES).any deleteOk = true
    · have hr : r = ⟨true,
          updateFS (safe_copy_and_verify hash fs src
            (move_dest fs dst altDest) cached copy).2 src none,
          move_dest fs dst altDest⟩ :=
        safe_move_cv_true_del hash fs src dst cached altDest copy
          deleteOk h1 h2
      rw [hr]
      refine ⟨fun hc => absurd hc (by simp), ?_, ?_⟩
      · intro c hsrc _
        obtain ⟨w, hw, hne, hver⟩ :=
          (scv_true_char hash fs src _ cached copy c hsrc).1 h1
        refine ⟨w, hw, hver, ?_⟩
        show updateFS _ src none (move_dest fs dst altDest) = some w
        rw [updateFS_ne _ _ (Ne.symm hne)]
        subst hw
        exact scv_true_dst hash fs src (move_dest fs dst altDest)
          cached w h1
      · intro c w hsrc hne hcopy hver
        subst hcopy
        have hfalse := (scv_cleanup hash fs src
          (move_dest fs dst altDest) cached w c hsrc hne hver).1
        rw [h1] at hfalse
        exact absurd hfalse (by simp)
    · have h2f : (List.range MAX_FILE_OPERATION_RETRIES).any deleteOk
          = false := by
        simpa using h2
      have hr : r = ⟨false,
          (safe_copy_and_verify hash fs src (move_dest fs dst altDest)
            cached copy).2,
          move_dest fs dst altDest⟩ :=
        safe_move_cv_true_nodel hash fs src dst cached altDest copy
          deleteOk h1 h2f
      rw [hr]
      refine ⟨fun _ => scv_fs_src hash fs src _ cached copy, ?_, ?_⟩
      · intro c hsrc hdel
        have hdel2 : (safe_copy_and_verify hash fs src
            (move_dest fs dst altDest) cached copy).2 src = none := hdel
        rw [scv_fs_src hash fs src _ cached copy, hsrc] at hdel2
        exact Option.noConfusion hdel2
      · intro c w hsrc hne hcopy hver
        subst hcopy
        have hfalse := (scv_cleanup hash fs src
          (move_dest fs dst altDest) cached w c hsrc hne hver).1
        rw [h1] at hfalse
        exact absurd hfalse (by simp)
  · have h1f : (safe_copy_and_verify hash fs src
        (move_dest fs dst altDest) cached copy).1 = false := by
      simpa using h1
    have hr : r = ⟨false,
        (safe_copy_and_verify hash fs src (move_dest fs dst altDest)
          cached copy).2,
        move_dest fs dst altDest⟩ :=
      safe_move_cv_false hash fs src dst cached altDest copy
        deleteOk h1f
    rw [hr]
    refine ⟨fun _ => scv_fs_src hash fs src _ cached copy, ?_, ?_⟩
    · intro c hsrc hdel
      have hdel2 : (safe_copy_and_verify hash fs src
          (move_dest fs dst altDest) cached copy).2 src = none := hdel
      rw [scv_fs_src hash fs src _ cached copy, hsrc] at hdel2
      exact Option.noConfusion hdel2
    · intro c w hsrc hne hcopy hver
      subst hcopy
      have hclean := scv_cleanup hash fs src
        (move_dest fs dst altDest) cached w c hsrc hne hver
      exact ⟨rfl, hclean.2,
        (scv_fs_src hash fs src _ cached _).trans hsrc⟩

/-- Witness for C1: a concrete successful move, where the source was
deleted and the theorem certifies that this followed a fresh
verification at the actually used destination. -/
theorem safe_move_no_loss_witness :
    singleFS "a.mp4" [1, 2] "a.mp4" = some [1, 2] ∧
    ∃ w, CopyOutcome.ok [1, 2] = CopyOutcome.ok w ∧
      source_digest lenHash none [1, 2] = lenHash w ∧
      (safe_move lenHash (singleFS "a.mp4" [1, 2]) "a.mp4" "b.mp4" none
        "alt.mp4" (CopyOutcome.ok [1, 2]) (fun _ => true)).fs
        (safe_move lenHash (singleFS "a.mp4" [1, 2]) "a.mp4" "b.mp4" none
          "alt.mp4" (CopyOutcome.ok [1, 2]) (fun _ => true)).dest
        = some w := by
  exact ⟨rfl,
    (safe_move_no_loss lenHash (singleFS "a.mp4" [1, 2]) "a.mp4" "b.mp4"
      none "alt.mp4" (CopyOutcome.ok [1, 2]) (fun _ => true)).2.1
      [1, 2] rfl (by decide)⟩

/-- C9: with a valid quota marker at `t`, `is_in_cooldown` is true on
the whole half-open window `[t, t + 24 h + 5 min)` and false at and
after its end, and false when no marker is present; the window length
is 86700 seconds. -/
theorem is_in_cooldown_window (sm : SMState) (t now : Int) :
    cooldown_delta = 86700 ∧
    (sm.last_quota_hit = some t → t ≤ now → now < t + cooldown_delta →
      is_in_cooldown sm now = true) ∧
    (sm.last_quota_hit = some t → t + cooldown_delta ≤ now →
      is_in_cooldown sm now = false) ∧
    (sm.last_quota_hit = none → is_in_cooldown sm now = false) := by
  refine ⟨by norm_num [cooldown_delta, QUOTA_COOLDOWN_HOURS,
    QUOTA_COOLDOWN_BUFFER_MINUTES], ?_, ?_, ?_⟩
  · intro h _ hlt
    simp [is_in_cooldown, h, hlt]
  · intro h hge
    simp only [is_in_cooldown, h, decide_eq_false_iff_not]
    omega
  · intro h
    simp [is_in_cooldown, h]

/-- Witness for C9: a marker at time 0, queried at the last second of
the window and at its end. -/
theorem is_in_cooldown_window_witness :
    ({ emptySM with last_quota_hit := some 0 } : SMState).last_quota_hit
      = some 0 ∧
    (0 : Int) ≤ 86699 ∧ (86699 : Int) < 0 + cooldown_delta ∧
    is_in_cooldown { emptySM with last_quota_hit := some 0 } 86699
      = true ∧
    is_in_cooldown { emptySM with last_quota_hit := some 0 } 86700
      = false := by
  refine ⟨rfl, by norm_num, by decide, ?_, ?_⟩
  · exact (is_in_cooldown_window { emptySM with last_quota_hit := some 0 }
      0 86699).2.1 rfl (by norm_num) (by decide)
  · exact (is_in_cooldown_window { emptySM with last_quota_hit := some 0 }
      0 86700).2.2.1 rfl (by decide)

/-- C10: `set_upload_state` replaces the stored record for the path in
its entirety with a fresh `{state, timestamp}` record carrying exactly
the retry fields passed; a call without retry arguments (as issued by
every `pending`/`uploading`/`completed` transition in the repository)
therefore stores a record with no `retry_count` and no
`next_retry_time`, and `get_retry_count` returns 0 for it. -/
theorem set_upload_state_fresh (sm : SMState) (p : Path) (st : UpState)
    (rc : Option Nat) (nrt : Option Int) (now : Int) :
    dictGet (set_upload_state sm p st rc nrt now).upload_states p =
      some ⟨st, now, rc, nrt⟩ ∧
    dictGet (set_upload_state sm p st none none now).upload_states p =
      some ⟨st, now, none, none⟩ ∧
    get_retry_count (set_upload_state sm p st none none now) p = 0 := by
  refine ⟨?_, ?_, ?_⟩
  · simp [set_upload_state, dictGet_dictSet_self]
  · simp [set_upload_state, dictGet_dictSet_self]
  · simp [get_retry_count, set_upload_state, dictGet_dictSet_self]

/-- C2: an upload of a file whose fingerprint is already in the
history returns the "already uploaded" result with no remote call and
no state mutation; and a successful upload makes exactly one remote
call, records the fingerprint, so a second call on the same content
makes no remote call. -/
theorem upload_video_idempotent_dedup (hash : Content → Digest)
    (selPlaylist : Option String) (env : UploadEnv) (sm : SMState)
    (fs : FS) (p : Path) (c : Content) (hc : fs p = some c)
    (hsz : c.length ≤ MAX_FILE_SIZE_BYTES) :
    let r := upload_video hash selPlaylist env sm fs p
    (is_file_uploaded sm (hash c) = true →
      r = ⟨UVOutcome.returned false UVMsg.alreadyUploaded none,
        sm, fs, 0⟩) ∧
    (∀ msg vid, r.outcome = UVOutcome.returned true msg vid →
      r.uploadCalls = 1 ∧ is_file_uploaded r.sm (hash c) = true ∧
      ∀ sel2 env2 p2, r.fs p2 = some c →
        upload_video hash sel2 env2 r.sm r.fs p2 =
          ⟨UVOutcome.returned false UVMsg.alreadyUploaded none,
            r.sm, r.fs, 0⟩) := by
  intro r
  have hr : r = upload_video hash selPlaylist env sm fs p := rfl
  constructor
  · intro hdup
    rw [hr]
    exact upload_video_dup hash selPlaylist env sm fs p c hc hsz hdup
  · intro msg vid hout
    rw [hr] at hout ⊢
    cases hdup : is_file_uploaded sm (hash c) with
    | true =>
      rw [upload_video_dup hash selPlaylist env sm fs p c hc hsz hdup]
        at hout
      simp at hout
    | false =>
      cases hrem : env.remote with
      | quotaExceeded =>
        rw [upload_video_eq_quota hash selPlaylist env sm fs p c hc hsz
          hdup hrem] at hout
        simp at hout
      | httpOther =>
        rw [upload_video_eq_httpOther hash selPlaylist env sm fs p c hc
          hsz hdup hrem] at hout
        exact absurd hout
          (upload_failure_retry_not_success _ _ _ _ _ msg vid)
      | ok vid0 =>
        by_cases herr : playlist_err selPlaylist env.playlist = true
        · rw [upload_video_eq_playlist_err hash selPlaylist env sm fs p c
            vid0 hc hsz hdup hrem herr] at hout
          simp at hout
        · have herrf : playlist_err selPlaylist env.playlist = false := by
            simpa using herr
          have heq := upload_video_eq_ok hash selPlaylist env sm fs p c
            vid0 hc hsz hdup hrem herrf
          rw [heq]
          have hhist : is_file_uploaded
              (set_upload_state
                (add_upload_to_history
                  (set_upload_state sm p UpState.uploading none none
                    env.now)
                  (hash c) p vid0 env.now)
                p UpState.completed none none env.now) (hash c) = true := by
            simp [is_file_uploaded, set_upload_state, add_upload_to_history,
              dictGet_dictSet_self]
          refine ⟨rfl, hhist, ?_⟩
          intro sel2 env2 p2 hc2
          exact upload_video_dup hash sel2 env2 _ _ p2 c hc2 hsz hhist

/-- Witness for C2: a concrete successful first upload followed by a
second call on the moved copy of the same content, which short
circuits with no remote call. -/
theorem upload_video_idempotent_dedup_witness :
    singleFS "a.mp4" [5] "a.mp4" = some [5] ∧
    ([5] : Content).length ≤ MAX_FILE_SIZE_BYTES ∧
    (upload_video lenHash none uvEnvOk emptySM (singleFS "a.mp4" [5])
      "a.mp4").uploadCalls = 1 ∧
    upload_video lenHash none uvEnvOk2
      (upload_video lenHash none uvEnvOk emptySM (singleFS "a.mp4" [5])
        "a.mp4").sm
      (upload_video lenHash none uvEnvOk emptySM (singleFS "a.mp4" [5])
        "a.mp4").fs
      "up_a.mp4" =
      ⟨UVOutcome.returned false UVMsg.alreadyUploaded none,
       (upload_video lenHash none uvEnvOk emptySM (singleFS "a.mp4" [5])
         "a.mp4").sm,
       (upload_video lenHash none uvEnvOk emptySM (singleFS "a.mp4" [5])
         "a.mp4").fs,
       0⟩ := by
  have h := (upload_video_idempotent_dedup lenHash none uvEnvOk emptySM
    (singleFS "a.mp4" [5]) "a.mp4" [5] rfl (by decide)).2
    UVMsg.uploadSuccess (some "vid1") (by decide)
  exact ⟨rfl, by decide, h.1, h.2.2 none uvEnvOk2 "up_a.mp4" (by decide)⟩

/-- C5: a quota-exceeded signal from the remote upload records the
quota marker at the current time, persists the record as `failed`
with no retry fields, propagates `QuotaExceededError`, and a batch
driver that receives it attempts no further files. -/
theorem upload_video_quota_halt (hash : Content → Digest)
    (sel : Option String) (env : UploadEnv) (sm : SMState) (fs : FS)
    (p : Path) (c : Content) (hc : fs p = some c)
    (hsz : c.length ≤ MAX_FILE_SIZE_BYTES)
    (hnot : is_file_uploaded sm (hash c) = false)
    (hrem : env.remote = RemoteResult.quotaExceeded) :
    let r := upload_video hash sel env sm fs p
    r.outcome = UVOutcome.quotaRaised ∧
    r.sm.last_quota_hit = some env.now ∧
    dictGet r.sm.upload_states p =
      some ⟨UpState.failed, env.now, none, none⟩ ∧
    r.uploadCalls = 1 ∧ r.fs = fs ∧
    (∀ rest envs stop sm0 fs0, stop 0 = false →
      (upload_video hash sel (envs p) sm0 fs0 p).outcome =
        UVOutcome.quotaRaised →
      (upload_files_from_folder hash sel envs stop (p :: rest) sm0
        fs0).attempted = [p] ∧
      (upload_files_from_folder hash sel envs stop (p :: rest) sm0
        fs0).quota_exceeded = true) := by
  intro r
  have hr : r = upload_video hash sel env sm fs p := rfl
  have heq := upload_video_eq_quota hash sel env sm fs p c hc hsz
    hnot hrem
  rw [hr, heq]
  refine ⟨rfl, rfl, ?_, rfl, rfl, ?_⟩
  · simp [set_upload_state, record_quota_hit, dictGet_dictSet_self]
  · intro rest envs stop sm0 fs0 hstop hq
    unfold upload_files_from_folder batch_loop
    rw [hstop]
    simp only [Bool.false_eq_true, if_false]
    constructor
    · show (match (upload_video hash sel (envs p) sm0 fs0 p).outcome
          with
        | UVOutcome.quotaRaised => _
        | UVOutcome.returned true _ _ => _
        | UVOutcome.returned false _ _ => _ : BatchResult).attempted = [p]
      rw [hq]
    · show (match (upload_video hash sel (envs p) sm0 fs0 p).outcome
          with
        | UVOutcome.quotaRaised => _
        | UVOutcome.returned true _ _ => _
        | UVOutcome.returned false _ _ => _ : BatchResult).quota_exceeded
        = true
      rw [hq]

/-- Witness for C5: a concrete quota-exceeded upload in a two-file
batch; only the first file is attempted. -/
theorem upload_video_quota_halt_witness :
    singleFS "q.mp4" [7] "q.mp4" = some [7] ∧
    is_file_uploaded emptySM (lenHash [7]) = false ∧
    (upload_video lenHash none uvEnvQuota emptySM
      (singleFS "q.mp4" [7]) "q.mp4").sm.last_quota_hit = some 50 ∧
    (upload_files_from_folder lenHash none (fun _ => uvEnvQuota)
      (fun _ => false) ["q.mp4", "r.mp4"] emptySM
      (singleFS "q.mp4" [7])).attempted = ["q.mp4"] := by
  have h := upload_video_quota_halt lenHash none uvEnvQuota emptySM
    (singleFS "q.mp4" [7]) "q.mp4" [7] rfl (by decide) rfl rfl
  exact ⟨rfl, rfl, h.2.1,
    (h.2.2.2.2.2 ["r.mp4"] (fun _ => uvEnvQuota) (fun _ => false)
      emptySM (singleFS "q.mp4" [7]) rfl (by decide)).1⟩

/-- C7 counterexample: after the playlist-gone partial success (the
error result does carry the remote video id and the record is
`failed`), the fingerprint was never recorded in the history, so a
subsequent `upload_video` call on the very same content performs
another remote upload call — refuting the claim that no re-upload of
the same content is attempted afterwards. -/
theorem upload_video_playlist_gone_counterexample :
    (upload_video lenHash (some "PL1") uvEnvPlGone emptySM
      (singleFS "c.mp4" [9]) "c.mp4").outcome =
      UVOutcome.returned false UVMsg.playlistAddFailed (some "vid1") ∧
    dictGet (upload_video lenHash (some "PL1") uvEnvPlGone emptySM
      (singleFS "c.mp4" [9]) "c.mp4").sm.upload_states "c.mp4" =
      some ⟨UpState.failed, 10, none, none⟩ ∧
    (upload_video lenHash (some "PL1") uvEnvPlGone emptySM
      (singleFS "c.mp4" [9]) "c.mp4").sm.upload_history = [] ∧
    (upload_video lenHash (some "PL1") uvEnvPlGone
      (upload_video lenHash (some "PL1") uvEnvPlGone emptySM
        (singleFS "c.mp4" [9]) "c.mp4").sm
      (upload_video lenHash (some "PL1") uvEnvPlGone emptySM
        (singleFS "c.mp4" [9]) "c.mp4").fs
      "c.mp4").uploadCalls = 1 := by
  exact ⟨by decide, by decide, by decide, by decide⟩

/-- C7 (amended): when the upload succeeds but the playlist existence
probe finds no playlist, `upload_video` reports a partial success:
the upload is not rolled back, the record is set to `failed` (no
retry fields), and the caller receives the remote video id alongside
the error result; however the fingerprint is not recorded in the
upload history (and the source file is not moved), so a later call on
the same content will attempt a new remote upload. -/
theorem upload_video_playlist_gone_partial (hash : Content → Digest)
    (env : UploadEnv) (sm : SMState) (fs : FS) (p : Path) (c : Content)
    (vid : String) (pid : String) (hc : fs p = some c)
    (hsz : c.length ≤ MAX_FILE_SIZE_BYTES)
    (hnot : is_file_uploaded sm (hash c) = false)
    (hrem : env.remote = RemoteResult.ok vid)
    (hpl : env.playlist = PlaylistAdd.probeMissing) :
    let r := upload_video hash (some pid) env sm fs p
    r.outcome = UVOutcome.returned false UVMsg.playlistAddFailed
      (some vid) ∧
    dictGet r.sm.upload_states p =
      some ⟨UpState.failed, env.now, none, none⟩ ∧
    r.sm.upload_history = sm.upload_history ∧
    r.fs = fs ∧ r.uploadCalls = 1 := by
  intro r
  have hr : r = upload_video hash (some pid) env sm fs p := rfl
  have herr : playlist_err (some pid) env.playlist = true := by
    rw [hpl]; rfl
  have heq := upload_video_eq_playlist_err hash (some pid) env sm fs p
    c vid hc hsz hnot hrem herr
  rw [hr, heq]
  refine ⟨rfl, ?_, rfl, rfl, rfl⟩
  simp [set_upload_state, dictGet_dictSet_self]

/-- Witness for C7 (amended): the concrete playlist-gone scenario. -/
theorem upload_video_playlist_gone_partial_witness :
    singleFS "c.mp4" [9] "c.mp4" = some [9] ∧
    is_file_uploaded emptySM (lenHash [9]) = false ∧
    (upload_video lenHash (some "PL1") uvEnvPlGone emptySM
      (singleFS "c.mp4" [9]) "c.mp4").outcome =
      UVOutcome.returned false UVMsg.playlistAddFailed (some "vid1") ∧
    (upload_video lenHash (some "PL1") uvEnvPlGone emptySM
      (singleFS "c.mp4" [9]) "c.mp4").sm.upload_history =
      emptySM.upload_history := by
  have h := upload_video_playlist_gone_partial lenHash uvEnvPlGone
    emptySM (singleFS "c.mp4" [9]) "c.mp4" [9] "vid1" "PL1" rfl
    (by decide) rfl rfl rfl
  exact ⟨rfl, rfl, h.1, h.2.2.1⟩

/-- C6 counterexample: a file that parses as JSON but fails the
upload-history schema validator is NOT copied aside — the `ValueError`
raised by validation is handled by the generic handler, which only
returns the empty record; the backup copy is made solely in the
`json.JSONDecodeError` handler. -/
theorem load_json_validator_failure_counterexample :
    validate_upload_history_schema (JVal.obj [("h", JVal.num 5)])
      = false ∧
    (load_json_with_validation "upload_history.json"
      (LoadedFile.wellFormed (JVal.obj [("h", JVal.num 5)]))
      (some validate_upload_history_schema) 1700000000).backupPath
      = none ∧
    (load_json_with_validation "upload_history.json"
      (LoadedFile.wellFormed (JVal.obj [("h", JVal.num 5)]))
      (some validate_upload_history_schema) 1700000000).data
      = JVal.obj [] := by
  exact ⟨rfl, rfl, rfl⟩

/-- C6 (amended): an absent state file yields the empty record with no
backup; a file that fails to parse as JSON is copied aside as
`<name>.corrupt.<unixtime>` and the empty record is returned; a file
that parses but fails its schema validator yields the empty record
WITHOUT any backup copy; a validated (or unvalidated) parse is
returned as loaded. -/
theorem load_json_with_validation_spec (filepath : String)
    (validator : Option (JVal → Bool)) (t : Nat) (j : JVal) :
    load_json_with_validation filepath LoadedFile.absent validator t =
      ⟨JVal.obj [], none⟩ ∧
    load_json_with_validation filepath LoadedFile.malformed validator t =
      ⟨JVal.obj [], some (filepath ++ ".corrupt." ++ toString t)⟩ ∧
    (∀ v, validator = some v → v j = false →
      load_json_with_validation filepath (LoadedFile.wellFormed j)
        validator t = ⟨JVal.obj [], none⟩) ∧
    (∀ v, validator = some v → v j = true →
      load_json_with_validation filepath (LoadedFile.wellFormed j)
        validator t = ⟨j, none⟩) ∧
    (validator = none →
      load_json_with_validation filepath (LoadedFile.wellFormed j)
        validator t = ⟨j, none⟩) := by
  refine ⟨rfl, rfl, ?_, ?_, ?_⟩
  · intro v hv hj
    subst hv
    simp [load_json_with_validation, hj]
  · intro v hv hj
    subst hv
    simp [load_json_with_validation, hj]
  · intro hv
    subst hv
    rfl

/-- Witness for C6 (amended): a concrete well-formed upload history
that passes the validator and is returned as loaded. -/
theorem load_json_with_validation_spec_witness :
    validate_upload_history_schema (JVal.obj []) = true ∧
    load_json_with_validation "upload_history.json"
      (LoadedFile.wellFormed (JVal.obj []))
      (some validate_upload_history_schema) 42 = ⟨JVal.obj [], none⟩ := by
  exact ⟨rfl,
    (load_json_with_validation_spec "upload_history.json"
      (some validate_upload_history_schema) 42 (JVal.obj [])).2.2.2.1
      validate_upload_history_schema rfl rfl⟩

/-- C3 counterexample: when `json.dump` itself raises (a failure
before `temp_path` is recorded), `_atomic_write_json` raises
`StateManagerError` and leaves the target untouched, but the
temporary file is NOT cleaned up: the handler's
`'temp_path' in locals()` guard skips the removal. -/
theorem atomic_write_json_counterexample :
    (atomic_write_json emptyAFS "state.json" "state_tmp.tmp"
      (JVal.obj []) (some AWFail.jsonDump)).1 = Except.error () ∧
    ((atomic_write_json emptyAFS "state.json" "state_tmp.tmp"
      (JVal.obj []) (some AWFail.jsonDump)).2.getLastD emptyAFS)
      "state_tmp.tmp" = some (FileData.partialData (JVal.obj [])) ∧
    ((atomic_write_json emptyAFS "state.json" "state_tmp.tmp"
      (JVal.obj []) (some AWFail.jsonDump)).2.getLastD emptyAFS)
      "state.json" = none := by
  exact ⟨rfl, rfl, rfl⟩

/-- C3 (amended): `atomic_write_json` writes to a temporary file in
the target's directory, fsyncs it and installs it with one rename; at
every observable moment the target holds either the previous complete
record or the new complete record; every failure raises
`StateManagerError` and leaves the target unchanged; the temporary
file is cleaned up for failures after serialization completed (flush,
fsync or rename), while a failure inside `json.dump` itself leaves
the temporary file behind; on success the target holds the new
record and the temporary file is gone. -/
theorem atomic_write_json_atomicity (fs : AFS) (target tmp : Path)
    (d : JVal) (failAt : Option AWFail) (hne : tmp ≠ target) :
    let r := atomic_write_json fs target tmp d failAt
    (∀ s ∈ r.2,
      s target = fs target ∨ s target = some (FileData.complete d)) ∧
    (∀ e, r.1 = Except.error e →
      (r.2.getLastD fs) target = fs target) ∧
    ((failAt = some AWFail.flushFsync ∨ failAt = some AWFail.renameStep) →
      r.1 = Except.error () ∧ (r.2.getLastD fs) tmp = none) ∧
    (failAt = none →
      r.1 = Except.ok (r.2.getLastD fs) ∧
      (r.2.getLastD fs) target = some (FileData.complete d) ∧
      (r.2.getLastD fs) tmp = none) := by
  intro r
  have hnt : target ≠ tmp := fun h => hne h.symm
  have htg : ∀ c, updateAFS fs tmp c target = fs target := by
    intro c
    simp [updateAFS, hnt]
  have htt : ∀ g c, updateAFS g tmp c tmp = c := by
    intro g c
    simp [updateAFS]
  cases failAt with
  | none =>
    have hr : r = (Except.ok (updateAFS (updateAFS fs tmp none) target
          (some (FileData.complete d))),
        [fs, updateAFS fs tmp (some (FileData.partialData d)),
         updateAFS fs tmp (some (FileData.complete d)),
         updateAFS (updateAFS fs tmp none) target
           (some (FileData.complete d))]) := rfl
    rw [hr]
    refine ⟨?_, ?_, ?_, ?_⟩
    · intro s hs
      simp only [List.mem_cons, List.not_mem_nil, or_false] at hs
      rcases hs with h | h | h | h
      · exact Or.inl (by rw [h])
      · exact Or.inl (by rw [h]; exact htg _)
      · exact Or.inl (by rw [h]; exact htg _)
      · exact Or.inr (by rw [h]; simp [updateAFS])
    · intro e he
      cases he
    · intro h
      rcases h with h | h <;> cases h
    · intro _
      refine ⟨rfl, by simp [List.getLastD, updateAFS], ?_⟩
      show updateAFS (updateAFS fs tmp none) target
        (some (FileData.complete d)) tmp = none
      rw [updateAFS, if_neg hne]
      exact htt _ _
  | some w =>
    cases w with
    | jsonDump =>
      have hr : r = (Except.error (),
          [fs, updateAFS fs tmp (some (FileData.partialData d))]) := rfl
      rw [hr]
      refine ⟨?_, ?_, ?_, ?_⟩
      · intro s hs
        simp only [List.mem_cons, List.not_mem_nil, or_false] at hs
        rcases hs with h | h
        · exact Or.inl (by rw [h])
        · exact Or.inl (by rw [h]; exact htg _)
      · intro e _
        show updateAFS fs tmp (some (FileData.partialData d)) target
          = fs target
        exact htg _
      · intro h
        rcases h with h | h <;> cases h
      · intro h
        cases h
    | flushFsync =>
      have hr : r = (Except.error (),
          [fs, updateAFS fs tmp (some (FileData.partialData d)),
           updateAFS fs tmp none]) := rfl
      rw [hr]
      refine ⟨?_, ?_, ?_, ?_⟩
      · intro s hs
        simp only [List.mem_cons, List.not_mem_nil, or_false] at hs
        rcases hs with h | h | h
        · exact Or.inl (by rw [h])
        · exact Or.inl (by rw [h]; exact htg _)
        · exact Or.inl (by rw [h]; exact htg _)
      · intro e _
        show updateAFS fs tmp none target = fs target
        exact htg _
      · intro _
        exact ⟨rfl, htt _ _⟩
      · intro h
        cases h
    | renameStep =>
      have hr : r = (Except.error (),
          [fs, updateAFS fs tmp (some (FileData.partialData d)),
           updateAFS fs tmp (some (FileData.complete d)),
           updateAFS fs tmp none]) := rfl
      rw [hr]
      refine ⟨?_, ?_, ?_, ?_⟩
      · intro s hs
        simp only [List.mem_cons, List.not_mem_nil, or_false] at hs
        rcases hs with h | h | h | h
        · exact Or.inl (by rw [h])
        · exact Or.inl (by rw [h]; exact htg _)
        · exact Or.inl (by rw [h]; exact htg _)
        · exact Or.inl (by rw [h]; exact htg _)
      · intro e _
        show updateAFS fs tmp none target = fs target
        exact htg _
      · intro _
        exact ⟨rfl, htt _ _⟩
      · intro h
        cases h

/-- C4: at recovery, every `uploading` record whose path still exists
is replaced by a fresh `pending` record, every other record (absent
paths or other states) is unchanged, keys are neither lost nor
duplicated, the other three state records are untouched, and the
returned count is the number of resets. -/
theorem reset_incomplete_spec (onDisk : Path → Bool) (now : Int)
    (sm : SMState)
    (hnodup : (sm.upload_states.map Prod.fst).Nodup) :
    let r := reset_incomplete_uploads_to_pending onDisk now sm
    r.1.upload_states = sm.upload_states.map (reset_entry onDisk now) ∧
    r.2 = sm.upload_states.countP
      (fun e => decide (e.2.state = UpState.uploading ∧
        onDisk e.1 = true)) ∧
    r.1.upload_states.map Prod.fst = sm.upload_states.map Prod.fst ∧
    r.1.upload_history = sm.upload_history ∧
    r.1.last_quota_hit = sm.last_quota_hit ∧
    r.1.playlist_sort_state = sm.playlist_sort_state := by
  intro r
  have haux := reset_foldl_aux onDisk now sm.upload_states [] sm 0
    (by simp) (by simp) hnodup
  have hr2 : r =
      ({ sm with upload_states := sm.upload_states.map (reset_entry onDisk now) },
       sm.upload_states.countP (fun e => decide (e.2.state = UpState.uploading ∧ onDisk e.1 = true))) := by
    show reset_incomplete_uploads_to_pending onDisk now sm = _
    unfold reset_incomplete_uploads_to_pending
    rw [haux]
    simp
  rw [hr2]
  refine ⟨rfl, rfl, ?_, rfl, rfl, rfl⟩
  show (sm.upload_states.map (reset_entry onDisk now)).map Prod.fst
    = sm.upload_states.map Prod.fst
  rw [List.map_map]
  refine List.map_congr_left ?_
  intro e _
  simp only [Function.comp_apply]
  unfold reset_entry
  split <;> rfl

/-- Witness for C4: a concrete recovery over three records: an
`uploading` record with an existing path (reset), an `uploading`
record with a missing path (unchanged), and a `failed` record
(unchanged); the count is 1. -/
theorem reset_incomplete_spec_witness :
    ((⟨[], [("u1.mp4", ⟨UpState.uploading, 5, none, none⟩),
        ("u2.mp4", ⟨UpState.uploading, 6, none, none⟩),
        ("f1.mp4", ⟨UpState.failed, 7, some 2, some 9⟩)], none, none⟩ :
        SMState).upload_states.map Prod.fst).Nodup ∧
    (reset_incomplete_uploads_to_pending (fun p => p == "u1.mp4") 50
      ⟨[], [("u1.mp4", ⟨UpState.uploading, 5, none, none⟩),
        ("u2.mp4", ⟨UpState.uploading, 6, none, none⟩),
        ("f1.mp4", ⟨UpState.failed, 7, some 2, some 9⟩)], none,
        none⟩).1.upload_states =
      [("u1.mp4", ⟨UpState.pending, 50, none, none⟩),
       ("u2.mp4", ⟨UpState.uploading, 6, none, none⟩),
       ("f1.mp4", ⟨UpState.failed, 7, some 2, some 9⟩)] ∧
    (reset_incomplete_uploads_to_pending (fun p => p == "u1.mp4") 50
      ⟨[], [("u1.mp4", ⟨UpState.uploading, 5, none, none⟩),
        ("u2.mp4", ⟨UpState.uploading, 6, none, none⟩),
        ("f1.mp4", ⟨UpState.failed, 7, some 2, some 9⟩)], none,
        none⟩).2 = 1 := by
  have h := reset_incomplete_spec (fun p => p == "u1.mp4") 50
    ⟨[], [("u1.mp4", ⟨UpState.uploading, 5, none, none⟩),
      ("u2.mp4", ⟨UpState.uploading, 6, none, none⟩),
      ("f1.mp4", ⟨UpState.failed, 7, some 2, some 9⟩)], none, none⟩
    (by decide)
  refine ⟨by decide, ?_, ?_⟩
  · rw [h.1]; decide
  · rw [h.2.1]; decide

/-- Witness for C3 (amended): a concrete successful atomic write. -/
theorem atomic_write_json_atomicity_witness :
    ("state_tmp.tmp" : Path) ≠ "state.json" ∧
    (atomic_write_json emptyAFS "state.json" "state_tmp.tmp"
      (JVal.obj []) none).1 =
      Except.ok ((atomic_write_json emptyAFS "state.json"
        "state_tmp.tmp" (JVal.obj []) none).2.getLastD emptyAFS) ∧
    ((atomic_write_json emptyAFS "state.json" "state_tmp.tmp"
      (JVal.obj []) none).2.getLastD emptyAFS) "state.json" =
      some (FileData.complete (JVal.obj [])) := by
  have h := (atomic_write_json_atomicity emptyAFS "state.json"
    "state_tmp.tmp" (JVal.obj []) none (by decide)).2.2.2 rfl
  exact ⟨by decide, h.1, h.2.1⟩

/-- C8: starting with no checkpoint, a sort run interrupted by quota
after `k` successful position commits persists a checkpoint holding
the computed order and last committed index `k - 1`; a rerun (whose
freshly fetched items `l2` are arbitrary — the fetch and sort phases
are skipped) resumes at index `k` and commits exactly the remaining
positions, so the combined committed sequence equals that of a single
uninterrupted run, and the checkpoint is cleared on completion. -/
theorem sort_playlist_resume_equivalence (l l2 : List Item)
    (pid : String) (k : Nat) (sm0 : SMState) (now now2 : Int)
    (hget : get_playlist_sort_state sm0 pid = none)
    (hne : l ≠ []) (hk : k < (sort_items l).length) :
    let quotaOr : Nat → CommitOutcome :=
      fun i => if i < k then CommitOutcome.ok else CommitOutcome.quota
    let run1 := sort_playlist_alphabetically l quotaOr pid now sm0
    let run2 := sort_playlist_alphabetically l2
      (fun _ => CommitOutcome.ok) pid now2 run1.sm
    let full := sort_playlist_alphabetically l
      (fun _ => CommitOutcome.ok) pid now sm0
    run1.sm.playlist_sort_state =
      some ⟨pid, sort_items l, (k : Int) - 1⟩ ∧
    run1.commits ++ run2.commits = full.commits ∧
    run2.success = true ∧
    run2.sm.playlist_sort_state = none := by
  intro quotaOr run1 run2 full
  have hemp : l.isEmpty = false := by
    cases l with
    | nil => exact absurd rfl hne
    | cons a t => rfl
  have hrun1 : run1 = sort_commit_phase quotaOr pid now (sort_items l)
      0 sm0 := by
    show sort_playlist_alphabetically l quotaOr pid now sm0 = _
    unfold sort_playlist_alphabetically
    rw [hget, hemp]
    rfl
  have hrun1e : run1 = ⟨false, k,
      save_playlist_sort_state (record_quota_hit sm0 now) pid
        (sort_items l) ((k : Int) - 1),
      (List.range' 0 k).map
        (fun i => (i, (sort_items l).getD i default))⟩ :=
    hrun1.trans (sort_commit_phase_quota pid now (sort_items l) k sm0 hk)
  have hget2 : get_playlist_sort_state run1.sm pid =
      some ⟨pid, sort_items l, (k : Int) - 1⟩ := by
    rw [hrun1e]
    simp [get_playlist_sort_state, save_playlist_sort_state,
      record_quota_hit]
  have hrun2 : run2 = sort_commit_phase (fun _ => CommitOutcome.ok)
      pid now2 (sort_items l) ((k : Int) - 1 + 1).toNat run1.sm := by
    show sort_playlist_alphabetically l2 _ pid now2 run1.sm = _
    unfold sort_playlist_alphabetically
    rw [hget2]
  have hstart : ((k : Int) - 1 + 1).toNat = k := by omega
  rw [hstart] at hrun2
  have hrun2e : run2 = ⟨true, k + ((sort_items l).length - k),
      clear_playlist_sort_state run1.sm,
      (List.range' k ((sort_items l).length - k)).map
        (fun i => (i, (sort_items l).getD i default))⟩ :=
    hrun2.trans (sort_commit_phase_all_ok (fun _ => CommitOutcome.ok)
      pid now2 (sort_items l) k run1.sm (fun _ => rfl))
  have hfull : full = sort_commit_phase (fun _ => CommitOutcome.ok)
      pid now (sort_items l) 0 sm0 := by
    show sort_playlist_alphabetically l _ pid now sm0 = _
    unfold sort_playlist_alphabetically
    rw [hget, hemp]
    rfl
  have hfulle : full = ⟨true, 0 + ((sort_items l).length - 0),
      clear_playlist_sort_state sm0,
      (List.range' 0 ((sort_items l).length - 0)).map
        (fun i => (i, (sort_items l).getD i default))⟩ :=
    hfull.trans (sort_commit_phase_all_ok (fun _ => CommitOutcome.ok)
      pid now (sort_items l) 0 sm0 (fun _ => rfl))
  refine ⟨?_, ?_, ?_, ?_⟩
  · rw [hrun1e]
    rfl
  · rw [hrun1e, hrun2e, hfulle]
    show (List.range' 0 k).map _ ++ (List.range' k _).map _ = _
    rw [← List.map_append]
    have hra : List.range' 0 k ++
        List.range' k ((sort_items l).length - k) =
        List.range' 0 ((sort_items l).length - 0) := by
      have h := List.range'_append 0 k ((sort_items l).length - k) 1
      simp only [Nat.one_mul, Nat.zero_add] at h
      rw [h]
      congr 1
      omega
    rw [hra]
  · rw [hrun2e]
  · rw [hrun2e]
    rfl

/-- Witness for C8: three concrete items, interrupted after one
commit, then resumed. -/
theorem sort_playlist_resume_equivalence_witness :
    get_playlist_sort_state emptySM "PL1" = none ∧
    ([(⟨"i1", "v1", "b"⟩ : Item), ⟨"i2", "v2", "A"⟩, ⟨"i3", "v3", "c"⟩]
      : List Item) ≠ [] ∧
    1 < (sort_items [(⟨"i1", "v1", "b"⟩ : Item), ⟨"i2", "v2", "A"⟩,
      ⟨"i3", "v3", "c"⟩]).length ∧
    (sort_playlist_alphabetically
      [(⟨"i1", "v1", "b"⟩ : Item), ⟨"i2", "v2", "A"⟩, ⟨"i3", "v3", "c"⟩]
      (fun i => if i < 1 then CommitOutcome.ok else CommitOutcome.quota)
      "PL1" 7 emptySM).commits ++
    (sort_playlist_alphabetically []
      (fun _ => CommitOutcome.ok) "PL1" 8
      (sort_playlist_alphabetically
        [(⟨"i1", "v1", "b"⟩ : Item), ⟨"i2", "v2", "A"⟩,
          ⟨"i3", "v3", "c"⟩]
        (fun i => if i < 1 then CommitOutcome.ok else
          CommitOutcome.quota)
        "PL1" 7 emptySM).sm).commits =
    (sort_playlist_alphabetically
      [(⟨"i1", "v1", "b"⟩ : Item), ⟨"i2", "v2", "A"⟩, ⟨"i3", "v3", "c"⟩]
      (fun _ => CommitOutcome.ok) "PL1" 7 emptySM).commits := by
  have h := sort_playlist_resume_equivalence
    [(⟨"i1", "v1", "b"⟩ : Item), ⟨"i2", "v2", "A"⟩, ⟨"i3", "v3", "c"⟩]
    [] "PL1" 1 emptySM 7 8 rfl (by decide) (by decide)
  exact ⟨rfl, by decide, by decide, h.2.1⟩

end YTU
